import Mathlib

/-!
Verification of the Keplerian astrometric model evaluator from the
SSW2022 orbit-fit notebook (`SSW2022_Jupyter_Orbit_Fit_Challenge.ipynb`).

The notebook is a fill-in-the-blank exercise: the mathematical content of
every operation (mean anomaly reduction, Newton-Raphson Kepler solver,
Thiele-Innes projection, along-scan prediction, companion-mass derivation)
is stated in full in its markdown cells, while the corresponding code cells
are intentionally left empty for the student.  The definitions below embed
those operations over the real numbers, following the markdown formulas
(and, where the markdown leaves a detail reader-supplied, the design
specification's words; such definitions say so in their doc comments).
-/

open Real

/-- Python floating-point modulo for a positive modulus: `a % b = a - b * ⌊a / b⌋`.
This is the `%` operation the notebook's mean-anomaly formula
`M = (2π (t - t_peri)/T) mod 2π` refers to. -/
noncomputable def pymod (a b : ℝ) : ℝ := a - b * ⌊a / b⌋

/-- Mean anomaly from the notebook: `M = (2π (t - t_peri)/T) mod 2π`,
the orbital phase reduced to `[0, 2π)`. -/
noncomputable def mean_anomaly (T tperi t : ℝ) : ℝ :=
  pymod (2 * π * (t - tperi) / T) (2 * π)

/-- Denominator of the notebook's Newton-Raphson update for Kepler's equation:
the derivative `f' = e cos E - 1` of `f(E) = M - E + e sin E`. -/
noncomputable def newton_denom (e E : ℝ) : ℝ := e * Real.cos E - 1

/-- One Newton-Raphson update from the notebook:
`E_{n+1} = E_n - (M - E_n + e sin E_n)/(e cos E_n - 1)`. -/
noncomputable def newton_step (M e E : ℝ) : ℝ :=
  E - (M - E + e * Real.sin E) / newton_denom e E

/-- Initial guess from the notebook:
`E_0 = M + (e sin M)/sqrt(1 - 2 e cos M + e^2)`. -/
noncomputable def kepler_init (M e : ℝ) : ℝ :=
  M + e * Real.sin M / Real.sqrt (1 - 2 * e * Real.cos M + e ^ 2)

/-- Modelled from the spec: the notebook's Kepler-solver code cell is empty
(reader-supplied); the iteration loop follows the spec's words — iterate the
Newton update until `|E_{n+1} - E_n|` falls below the absolute tolerance, and
if the iteration budget runs out without convergence signal a
numerical-failure condition (`none`) rather than returning a stale iterate. -/
noncomputable def solve_kepler_loop (M e tol : ℝ) : ℕ → ℝ → Option ℝ
  | 0, _ => none
  | n + 1, E =>
    if |newton_step M e E - E| < tol then some (newton_step M e E)
    else solve_kepler_loop M e tol n (newton_step M e E)

/-- Modelled from the spec: `solve_kepler(M, e)` with explicit tolerance and
iteration budget; starts the Newton-Raphson iteration from the notebook's
initial guess `kepler_init`. -/
noncomputable def solve_kepler (M e tol : ℝ) (maxIter : ℕ) : Option ℝ :=
  solve_kepler_loop M e tol maxIter (kepler_init M e)

/-- Thiele-Innes elliptical-orbit coordinates from the notebook:
`X = cos E - e`, `Y = (sin E) sqrt(1 - e^2)`. -/
noncomputable def thiele_innes_position (E e : ℝ) : ℝ × ℝ :=
  (Real.cos E - e, Real.sin E * Real.sqrt (1 - e ^ 2))

/-- One synthetic Gaia along-scan observation epoch: time `t` in Julian years
from the reference epoch 2016.0, scan angle `θ` in radians, and the parallax
factor along scan. -/
structure Obs where
  t : ℝ
  θ : ℝ
  pf : ℝ

/-- Five-parameter single-star sky-path model: reference-epoch offsets, proper
motions, and parallax. -/
structure SingleStarParams where
  α0 : ℝ
  δ0 : ℝ
  μα : ℝ
  μδ : ℝ
  plx : ℝ

/-- Twelve-parameter orbital model: the five sky-path parameters plus
eccentricity `e`, period `T`, periastron time `tperi`, and the four
Thiele-Innes constants `A`, `B`, `F`, `G`. -/
structure OrbitalParams where
  α0 : ℝ
  δ0 : ℝ
  μα : ℝ
  μδ : ℝ
  plx : ℝ
  e : ℝ
  T : ℝ
  tperi : ℝ
  A : ℝ
  B : ℝ
  F : ℝ
  G : ℝ

/-- Sky-path part of an orbital parameter vector. -/
def OrbitalParams.base (p : OrbitalParams) : SingleStarParams :=
  ⟨p.α0, p.δ0, p.μα, p.μδ, p.plx⟩

/-- Single-star along-scan position from the notebook:
`p_Gaia = (α0 + μα t) sin θ + (δ0 + μδ t) cos θ + ϖ · pf`. -/
noncomputable def single_star_model (q : SingleStarParams) (o : Obs) : ℝ :=
  (q.α0 + q.μα * o.t) * Real.sin o.θ + (q.δ0 + q.μδ * o.t) * Real.cos o.θ +
    q.plx * o.pf

/-- Orbital along-scan contribution from the notebook: `Δα = B X + G Y`,
`Δδ = A X + F Y`, projected as `Δα sin θ + Δδ cos θ`. -/
noncomputable def orbital_term (p : OrbitalParams) (E : ℝ) (o : Obs) : ℝ :=
  (p.B * (thiele_innes_position E p.e).1 + p.G * (thiele_innes_position E p.e).2) *
      Real.sin o.θ +
    (p.A * (thiele_innes_position E p.e).1 + p.F * (thiele_innes_position E p.e).2) *
      Real.cos o.θ

/-- Predicted along-scan position of the twelve-parameter model at one
observation: solve Kepler's equation at the epoch's mean anomaly, then add the
orbital projection to the single-star position.  `none` when the Kepler solver
fails to converge. -/
noncomputable def orbital_model_at (p : OrbitalParams) (tol : ℝ) (maxIter : ℕ)
    (o : Obs) : Option ℝ :=
  (solve_kepler (mean_anomaly p.T p.tperi o.t) p.e tol maxIter).map fun E =>
    single_star_model p.base o + orbital_term p E o

/-- Evaluation of a fallible per-observation model over the whole observation
list, propagating failure (the vectorized evaluation of the notebook). -/
def optMap {α β : Type} (f : α → Option β) : List α → Option (List β)
  | [] => some []
  | a :: l => (f a).bind fun b => (optMap f l).map fun bs => b :: bs

/-- Predicted along-scan positions of the five-parameter single-star model,
one per observation, in input order. -/
noncomputable def predict_single (q : SingleStarParams) (obs : List Obs) : List ℝ :=
  obs.map (single_star_model q)

/-- Modelled from the spec: the orbital-fit code cell is empty
(reader-supplied); per the spec, candidate parameter vectors with eccentricity
outside `[0, 1)` are rejected before the orbital model is evaluated, so that
`sqrt(1 - e^2)` is never taken with `e ≥ 1`. -/
noncomputable def predict_orbital (p : OrbitalParams) (obs : List Obs) (tol : ℝ)
    (maxIter : ℕ) : Option (List ℝ) :=
  if 0 ≤ p.e ∧ p.e < 1 then optMap (orbital_model_at p tol maxIter) obs else none

/-- Weighted sum of squared residuals from the notebook:
`χ² = Σ (p_measured - p_predicted)² / σ²`, for the orbital model; `none` when
the model evaluation is rejected or the Kepler solver fails. -/
noncomputable def chi2_orbital (p : OrbitalParams) (obs : List Obs)
    (wobs sigw : List ℝ) (tol : ℝ) (maxIter : ℕ) : Option ℝ :=
  (predict_orbital p obs tol maxIter).map fun ps =>
    ((wobs.zip (ps.zip sigw)).map fun x => (x.1 - x.2.1) ^ 2 / x.2.2 ^ 2).sum

/-- Helper variable `u = (A² + B² + F² + G²)/2` from the companion-mass cell. -/
noncomputable def tiU (A B F G : ℝ) : ℝ := (A ^ 2 + B ^ 2 + F ^ 2 + G ^ 2) / 2

/-- Helper variable `v = B F - A G` from the companion-mass cell. -/
noncomputable def tiV (A B F G : ℝ) : ℝ := B * F - A * G

/-- Semimajor axis in arcseconds from the companion-mass cell:
`sma = sqrt(u + sqrt(u² - v²))`. -/
noncomputable def sma_arcsec (A B F G : ℝ) : ℝ :=
  Real.sqrt (tiU A B F G + Real.sqrt ((tiU A B F G) ^ 2 - (tiV A B F G) ^ 2))

/-- Modelled from the spec: the companion-mass code cell is empty
(reader-supplied).  Per the spec, the derivation fails (signals invalid-fit,
`none`) when `u² < v²`; otherwise the semimajor axis in AU is the arcsecond
value divided by the parallax, the total mass comes from Kepler's third law
`total = a_AU³ / T²`, and the companion mass is solved from the total and
primary masses (the spec leaves the final inversion step partially specified;
it is taken here as total minus primary). -/
noncomputable def derive_companion_mass (A B F G plx m1 T : ℝ) : Option ℝ :=
  if (tiU A B F G) ^ 2 < (tiV A B F G) ^ 2 then none
  else some ((sma_arcsec A B F G / plx) ^ 3 / T ^ 2 - m1)

/-- Concrete all-zero circular-orbit parameter vector (period one year), used
to evaluate the model at a concrete input. -/
noncomputable def exampleParams : OrbitalParams := ⟨0, 0, 0, 0, 0, 0, 1, 0, 0, 0, 0, 0⟩

/-- Concrete observation at the reference epoch with scan angle zero. -/
noncomputable def exampleObs : Obs := ⟨0, 0, 0⟩

/-! ### Helper lemmas about the floating-point modulo -/

lemma pymod_eq_mul_fract (a b : ℝ) (hb : b ≠ 0) :
    pymod a b = b * Int.fract (a / b) := by
  rw [pymod, Int.fract, mul_sub, mul_comm b (a / b), div_mul_cancel₀ a hb]

lemma pymod_nonneg (a b : ℝ) (hb : 0 < b) : 0 ≤ pymod a b := by
  rw [pymod_eq_mul_fract a b hb.ne']
  exact mul_nonneg hb.le (Int.fract_nonneg _)

lemma pymod_lt (a b : ℝ) (hb : 0 < b) : pymod a b < b := by
  rw [pymod_eq_mul_fract a b hb.ne']
  calc b * Int.fract (a / b) < b * 1 :=
        mul_lt_mul_of_pos_left (Int.fract_lt_one _) hb
    _ = b := mul_one b

/-- C6: for every real epoch `t`, period `T > 0` and periastron time `tperi`,
the mean anomaly fed to the Kepler solver equals `(2π(t - tperi)/T) mod 2π`
and lies in `[0, 2π)`, including for epochs before periastron. -/
theorem mean_anomaly_formula_and_range (T tperi t : ℝ) (hT : 0 < T) :
    mean_anomaly T tperi t = pymod (2 * π * (t - tperi) / T) (2 * π) ∧
    0 ≤ mean_anomaly T tperi t ∧ mean_anomaly T tperi t < 2 * π :=
  ⟨rfl, pymod_nonneg _ _ Real.two_pi_pos, pymod_lt _ _ Real.two_pi_pos⟩

/-- Witness for C6 at `T = 2`, `tperi = 1`, `t = 0` (an epoch before
periastron). -/
theorem mean_anomaly_formula_and_range_witness :
    (0 : ℝ) < 2 ∧
    (mean_anomaly 2 1 0 = pymod (2 * π * ((0 : ℝ) - 1) / 2) (2 * π) ∧
      0 ≤ mean_anomaly 2 1 0 ∧ mean_anomaly 2 1 0 < 2 * π) :=
  ⟨by norm_num, mean_anomaly_formula_and_range 2 1 0 (by norm_num)⟩

/-- C7: for every eccentricity `e ∈ [0, 1)`,
`thiele_innes_position 0 e = (1 - e, 0)` and
`thiele_innes_position π e = (-1 - e, 0)` (periastron and apastron boundary
values). -/
theorem thiele_innes_boundary (e : ℝ) (h0 : 0 ≤ e) (h1 : e < 1) :
    thiele_innes_position 0 e = (1 - e, 0) ∧
    thiele_innes_position π e = (-1 - e, 0) := by
  constructor
  · unfold thiele_innes_position
    simp
  · unfold thiele_innes_position
    simp [Real.cos_pi, Real.sin_pi]

/-- Witness for C7 at `e = 1/2`. -/
theorem thiele_innes_boundary_witness :
    (0 : ℝ) ≤ 1 / 2 ∧ (1 / 2 : ℝ) < 1 ∧
    (thiele_innes_position 0 (1 / 2) = (1 - 1 / 2, 0) ∧
      thiele_innes_position π (1 / 2) = (-1 - 1 / 2, 0)) :=
  ⟨by norm_num, by norm_num, thiele_innes_boundary (1 / 2) (by norm_num) (by norm_num)⟩

/-- C10: for every `e ∈ [0, 1)`, mean anomaly `M` and iterate `E`, the
Newton-Raphson denominator satisfies `e cos E - 1 ≤ e - 1 < 0`, hence is
nonzero, so the update step of `solve_kepler` never divides by zero. -/
theorem newton_denom_nonzero (M e E : ℝ) (h0 : 0 ≤ e) (h1 : e < 1) :
    newton_denom e E ≤ e - 1 ∧ e - 1 < 0 ∧ newton_denom e E ≠ 0 ∧
    newton_step M e E = E - (M - E + e * Real.sin E) / newton_denom e E := by
  have hc : Real.cos E ≤ 1 := Real.cos_le_one E
  have h : e * Real.cos E ≤ e := by nlinarith
  have hle : newton_denom e E ≤ e - 1 := by
    show e * Real.cos E - 1 ≤ e - 1
    linarith
  exact ⟨hle, by linarith, (hle.trans_lt (by linarith)).ne, rfl⟩

/-- Witness for C10 at `M = 0`, `e = 1/2`, `E = 0`. -/
theorem newton_denom_nonzero_witness :
    (0 : ℝ) ≤ 1 / 2 ∧ (1 / 2 : ℝ) < 1 ∧
    (newton_denom (1 / 2) 0 ≤ 1 / 2 - 1 ∧ (1 / 2 : ℝ) - 1 < 0 ∧
      newton_denom (1 / 2) 0 ≠ 0 ∧
      newton_step 0 (1 / 2) 0 =
        0 - (0 - 0 + 1 / 2 * Real.sin 0) / newton_denom (1 / 2) 0) :=
  ⟨by norm_num, by norm_num, newton_denom_nonzero 0 (1 / 2) 0 (by norm_num) (by norm_num)⟩

/-- C9: for all real Thiele-Innes constants, `u ≥ |v|`, hence `u² - v² ≥ 0`
and `u + sqrt(u² - v²) ≥ 0`: both square roots in the semimajor-axis formula
are defined over the reals, and the invalid-geometry branch of
`derive_companion_mass` is unreachable on real inputs. -/
theorem invalid_geometry_unreachable (A B F G plx m1 T : ℝ) :
    |tiV A B F G| ≤ tiU A B F G ∧
    (tiV A B F G) ^ 2 ≤ (tiU A B F G) ^ 2 ∧
    0 ≤ tiU A B F G + Real.sqrt ((tiU A B F G) ^ 2 - (tiV A B F G) ^ 2) ∧
    derive_companion_mass A B F G plx m1 T ≠ none := by
  have h1 : tiV A B F G ≤ tiU A B F G := by
    unfold tiU tiV
    nlinarith [sq_nonneg (B - F), sq_nonneg (A + G)]
  have h2 : -(tiU A B F G) ≤ tiV A B F G := by
    unfold tiU tiV
    nlinarith [sq_nonneg (B + F), sq_nonneg (A - G)]
  have hu : 0 ≤ tiU A B F G := by
    unfold tiU
    positivity
  have hsq : (tiV A B F G) ^ 2 ≤ (tiU A B F G) ^ 2 := sq_le_sq' h2 h1
  refine ⟨abs_le.mpr ⟨h2, h1⟩, hsq, add_nonneg hu (Real.sqrt_nonneg _), ?_⟩
  unfold derive_companion_mass
  rw [if_neg (not_lt.mpr hsq)]
  simp

/-- C4: `derive_companion_mass` fails (returns `none`) exactly when
`u² < v²`; otherwise it returns the mass derived from the semimajor axis
`sqrt(u + sqrt(u² - v²))` via parallax and Kepler's third law, with both
square-root arguments nonnegative (never a complex or NaN result). -/
theorem derive_companion_mass_spec (A B F G plx m1 T : ℝ) :
    (derive_companion_mass A B F G plx m1 T = none ↔
      (tiU A B F G) ^ 2 < (tiV A B F G) ^ 2) ∧
    (¬ (tiU A B F G) ^ 2 < (tiV A B F G) ^ 2 →
      0 ≤ (tiU A B F G) ^ 2 - (tiV A B F G) ^ 2 ∧
      0 ≤ tiU A B F G + Real.sqrt ((tiU A B F G) ^ 2 - (tiV A B F G) ^ 2) ∧
      sma_arcsec A B F G =
        Real.sqrt (tiU A B F G + Real.sqrt ((tiU A B F G) ^ 2 - (tiV A B F G) ^ 2)) ∧
      derive_companion_mass A B F G plx m1 T =
        some ((sma_arcsec A B F G / plx) ^ 3 / T ^ 2 - m1)) := by
  constructor
  · unfold derive_companion_mass
    by_cases h : (tiU A B F G) ^ 2 < (tiV A B F G) ^ 2
    · rw [if_pos h]
      simp [h]
    · rw [if_neg h]
      simp [h]
  · intro h
    have hu : 0 ≤ tiU A B F G := by
      unfold tiU
      positivity
    refine ⟨by linarith [not_lt.mp h], add_nonneg hu (Real.sqrt_nonneg _), rfl, ?_⟩
    unfold derive_companion_mass
    rw [if_neg h]

/-- Witness for C4 at `A = 1`, `B = F = G = 0`, `plx = m1 = T = 1`. -/
theorem derive_companion_mass_spec_witness :
    ¬ (tiU 1 0 0 0) ^ 2 < (tiV 1 0 0 0) ^ 2 ∧
    (0 ≤ (tiU 1 0 0 0) ^ 2 - (tiV 1 0 0 0) ^ 2 ∧
      0 ≤ tiU 1 0 0 0 + Real.sqrt ((tiU 1 0 0 0) ^ 2 - (tiV 1 0 0 0) ^ 2) ∧
      sma_arcsec 1 0 0 0 =
        Real.sqrt (tiU 1 0 0 0 + Real.sqrt ((tiU 1 0 0 0) ^ 2 - (tiV 1 0 0 0) ^ 2)) ∧
      derive_companion_mass 1 0 0 0 1 1 1 =
        some ((sma_arcsec 1 0 0 0 / 1) ^ 3 / 1 ^ 2 - 1)) := by
  have h : ¬ (tiU 1 0 0 0) ^ 2 < (tiV 1 0 0 0) ^ 2 := by
    unfold tiU tiV
    norm_num
  exact ⟨h, (derive_companion_mass_spec 1 0 0 0 1 1 1).2 h⟩

/-! ### Structure of the Kepler-solver iteration -/

lemma solve_kepler_loop_some {M e tol : ℝ} :
    ∀ (n : ℕ) (E0 E : ℝ), solve_kepler_loop M e tol n E0 = some E →
      ∃ Ep, E = newton_step M e Ep ∧ |newton_step M e Ep - Ep| < tol := by
  intro n
  induction n with
  | zero =>
    intro E0 E h
    simp [solve_kepler_loop] at h
  | succ n ih =>
    intro E0 E h
    simp only [solve_kepler_loop] at h
    by_cases hc : |newton_step M e E0 - E0| < tol
    · rw [if_pos hc] at h
      exact ⟨E0, (Option.some_inj.mp h).symm, hc⟩
    · rw [if_neg hc] at h
      exact ih _ _ h

lemma kepler_init_ecc_zero (M : ℝ) : kepler_init M 0 = M := by
  simp [kepler_init]

lemma newton_step_ecc_zero (M E : ℝ) : newton_step M 0 E = M := by
  unfold newton_step newton_denom
  norm_num
  ring

lemma solve_kepler_ecc_zero (M tol : ℝ) (htol : 0 < tol) (n : ℕ) :
    solve_kepler M 0 tol (n + 1) = some M := by
  rw [solve_kepler, kepler_init_ecc_zero]
  simp only [solve_kepler_loop]
  rw [newton_step_ecc_zero]
  rw [if_pos (by simpa using htol)]

/-- C3: the Kepler solver never silently returns a stale iterate: with a zero
iteration budget it signals failure (`none`), and in general it either signals
failure or returns a Newton update that met the convergence criterion
`|E_{n+1} - E_n| < tol`. -/
theorem solve_kepler_no_stale (M e tol : ℝ) (n : ℕ) :
    solve_kepler M e tol 0 = none ∧
    (solve_kepler M e tol n = none ∨
      ∃ Ep, solve_kepler M e tol n = some (newton_step M e Ep) ∧
        |newton_step M e Ep - Ep| < tol) := by
  refine ⟨by simp [solve_kepler, solve_kepler_loop], ?_⟩
  cases hh : solve_kepler M e tol n with
  | none => exact Or.inl rfl
  | some E =>
    obtain ⟨Ep, hEp, hlt⟩ := solve_kepler_loop_some n _ E hh
    exact Or.inr ⟨Ep, by rw [← hEp], hlt⟩

/-- C8: for every mean anomaly `M`, `solve_kepler M 0` returns `M` exactly
(circular-orbit degeneracy of Kepler's equation at `e = 0`), given a positive
tolerance and at least one iteration allowed. -/
theorem solve_kepler_circular (M tol : ℝ) (n : ℕ) (htol : 0 < tol)
    (hn : 1 ≤ n) : solve_kepler M 0 tol n = some M := by
  obtain _ | m := n
  · exact absurd hn (by norm_num)
  · exact solve_kepler_ecc_zero M tol htol m

/-- Witness for C8 at `M = 7`, `tol = 1`, one iteration. -/
theorem solve_kepler_circular_witness :
    (0 : ℝ) < 1 ∧ 1 ≤ 1 ∧ solve_kepler 7 0 1 1 = some 7 :=
  ⟨by norm_num, le_refl 1, solve_kepler_circular 7 1 1 (by norm_num) (le_refl 1)⟩

/-! ### Residual bound for a converged Newton update -/

lemma abs_cos_sub_cos_le (x y : ℝ) : |Real.cos x - Real.cos y| ≤ |x - y| := by
  have hf : ∀ z ∈ (Set.univ : Set ℝ), HasDerivWithinAt Real.cos (-Real.sin z) Set.univ z :=
    fun z _ => (Real.hasDerivAt_cos z).hasDerivWithinAt
  have hbound : ∀ z ∈ (Set.univ : Set ℝ), ‖-Real.sin z‖ ≤ 1 := by
    intro z _
    rw [norm_neg, Real.norm_eq_abs]
    exact Real.abs_sin_le_one z
  have h := convex_univ.norm_image_sub_le_of_norm_hasDerivWithin_le hf hbound
    (Set.mem_univ y) (Set.mem_univ x)
  simpa [Real.norm_eq_abs] using h

lemma newton_step_residual (M e : ℝ) (he0 : 0 ≤ e) (he1 : e < 1) (Ep : ℝ) :
    |M - newton_step M e Ep + e * Real.sin (newton_step M e Ep)| ≤
      e * (newton_step M e Ep - Ep) ^ 2 := by
  set E := newton_step M e Ep with hE
  set d := newton_denom e Ep with hdd
  have hc : Real.cos Ep ≤ 1 := Real.cos_le_one Ep
  have hd : d ≠ 0 := by
    have hle : d ≤ e - 1 := by
      rw [hdd]
      show e * Real.cos Ep - 1 ≤ e - 1
      nlinarith
    exact (hle.trans_lt (by linarith)).ne
  have hkey : (M - Ep + e * Real.sin Ep) + d * (E - Ep) = 0 := by
    rw [hE, hdd]
    unfold newton_step
    rw [← hdd]
    field_simp
    ring
  have hderiv : ∀ x : ℝ, HasDerivAt (fun y => M - y + e * Real.sin y - d * y)
      (e * Real.cos x - e * Real.cos Ep) x := by
    intro x
    have h1 : HasDerivAt (fun y : ℝ => M - y) (0 - 1) x :=
      (hasDerivAt_const x M).sub (hasDerivAt_id x)
    have h2 : HasDerivAt (fun y : ℝ => e * Real.sin y) (e * Real.cos x) x :=
      (Real.hasDerivAt_sin x).const_mul e
    have h3 : HasDerivAt (fun y : ℝ => d * y) (d * 1) x :=
      (hasDerivAt_id x).const_mul d
    have h4 := (h1.add h2).sub h3
    convert h4 using 1
    rw [hdd]
    unfold newton_denom
    ring
  have hbound : ∀ x ∈ Set.uIcc Ep E,
      ‖e * Real.cos x - e * Real.cos Ep‖ ≤ e * |E - Ep| := by
    intro x hx
    rw [Real.norm_eq_abs]
    have h5 : |Real.cos x - Real.cos Ep| ≤ |x - Ep| := abs_cos_sub_cos_le x Ep
    have h6 : |x - Ep| ≤ |E - Ep| := Set.abs_sub_left_of_mem_uIcc hx
    calc |e * Real.cos x - e * Real.cos Ep|
        = e * |Real.cos x - Real.cos Ep| := by
          rw [← mul_sub, abs_mul, abs_of_nonneg he0]
      _ ≤ e * |E - Ep| := mul_le_mul_of_nonneg_left (h5.trans h6) he0
  have hmvt := (convex_uIcc Ep E).norm_image_sub_le_of_norm_hasDerivWithin_le
    (fun x _ => (hderiv x).hasDerivWithinAt) hbound
    Set.left_mem_uIcc Set.right_mem_uIcc
  have h7 : |(M - E + e * Real.sin E - d * E) - (M - Ep + e * Real.sin Ep - d * Ep)|
      ≤ e * |E - Ep| * |E - Ep| := by
    simpa [Real.norm_eq_abs] using hmvt
  have heq : (M - E + e * Real.sin E - d * E) - (M - Ep + e * Real.sin Ep - d * Ep)
      = M - E + e * Real.sin E := by
    linarith [hkey]
  rw [heq] at h7
  calc |M - E + e * Real.sin E| ≤ e * |E - Ep| * |E - Ep| := h7
    _ = e * (E - Ep) ^ 2 := by rw [mul_assoc, abs_mul_abs_self, sq]

/-- C1: for every eccentricity `e ∈ [0, 0.99]`, every mean anomaly
`M ∈ [0, 2π)` and every positive convergence tolerance at most one, the
eccentric anomaly `E` returned by `solve_kepler` satisfies the round-trip
equation `E - e sin E = M` to within the solver's convergence tolerance. -/
theorem solve_kepler_roundtrip (M e tol : ℝ) (maxIter : ℕ) (E : ℝ)
    (he0 : 0 ≤ e) (he1 : e ≤ 0.99) (hM0 : 0 ≤ M) (hM1 : M < 2 * π)
    (htol0 : 0 < tol) (htol1 : tol ≤ 1)
    (h : solve_kepler M e tol maxIter = some E) :
    |E - e * Real.sin E - M| ≤ tol := by
  obtain ⟨Ep, hEq, hlt⟩ := solve_kepler_loop_some maxIter (kepler_init M e) E h
  subst hEq
  have hres := newton_step_residual M e he0 (by linarith) Ep
  have hsq : (newton_step M e Ep - Ep) ^ 2 ≤ tol ^ 2 := by
    nlinarith [abs_nonneg (newton_step M e Ep - Ep),
      sq_abs (newton_step M e Ep - Ep), hlt.le]
  have hfin : e * (newton_step M e Ep - Ep) ^ 2 ≤ tol := by
    nlinarith [mul_le_mul_of_nonneg_left hsq he0,
      sq_nonneg (newton_step M e Ep - Ep), mul_pos htol0 htol0]
  have heq2 : newton_step M e Ep - e * Real.sin (newton_step M e Ep) - M
      = -(M - newton_step M e Ep + e * Real.sin (newton_step M e Ep)) := by
    ring
  rw [heq2, abs_neg]
  exact hres.trans hfin

/-- Witness for C1 at `M = 0`, `e = 0`, `tol = 1`, one iteration. -/
theorem solve_kepler_roundtrip_witness :
    (0 : ℝ) ≤ 0 ∧ (0 : ℝ) ≤ 0.99 ∧ (0 : ℝ) ≤ 0 ∧ (0 : ℝ) < 2 * π ∧
    (0 : ℝ) < 1 ∧ (1 : ℝ) ≤ 1 ∧ solve_kepler 0 0 1 1 = some 0 ∧
    |0 - (0 : ℝ) * Real.sin 0 - 0| ≤ 1 := by
  have hs : solve_kepler 0 0 1 1 = some 0 := solve_kepler_ecc_zero 0 1 one_pos 0
  exact ⟨le_refl 0, by norm_num, le_refl 0, Real.two_pi_pos, one_pos, le_refl 1, hs,
    solve_kepler_roundtrip 0 0 1 1 0 (le_refl 0) (by norm_num) (le_refl 0)
      Real.two_pi_pos one_pos (le_refl 1) hs⟩

/-! ### Elementwise description of the vectorized model evaluation -/

lemma optMap_spec {α β : Type} (f : α → Option β) :
    ∀ (l : List α) (ps : List β), optMap f l = some ps →
      ps.length = l.length ∧
      ∀ (i : ℕ) (a : α), l[i]? = some a →
        ∃ b, f a = some b ∧ ps[i]? = some b := by
  intro l
  induction l with
  | nil =>
    intro ps h
    simp [optMap] at h
    subst h
    exact ⟨rfl, fun i a ha => by simp at ha⟩
  | cons x l ih =>
    intro ps h
    simp only [optMap] at h
    cases hfx : f x with
    | none =>
      rw [hfx] at h
      simp at h
    | some b =>
      rw [hfx] at h
      cases hrest : optMap f l with
      | none =>
        rw [hrest] at h
        simp at h
      | some bs =>
        rw [hrest] at h
        simp at h
        subst h
        obtain ⟨hlen, helem⟩ := ih bs hrest
        refine ⟨by simp [hlen], ?_⟩
        intro i a ha
        cases i with
        | zero =>
          simp at ha
          subst ha
          exact ⟨b, hfx, by simp⟩
        | succ i =>
          simp only [List.getElem?_cons_succ] at ha ⊢
          exact helem i a ha

/-- C2: for every parameter vector and observation list, the model prediction
returns one scalar per observation, in input order, equal to
`(α0 + μα t) sin θ + (δ0 + μδ t) cos θ + ϖ pf`, plus, for the twelve-parameter
orbital model, `(B X + G Y) sin θ + (A X + F Y) cos θ` with
`X = cos E - e` and `Y = sin E sqrt(1 - e²)` at that epoch's eccentric
anomaly `E`. -/
theorem predict_matches_formula (p : OrbitalParams) (q : SingleStarParams)
    (obs : List Obs) (tol : ℝ) (maxIter : ℕ) (ps : List ℝ)
    (h : predict_orbital p obs tol maxIter = some ps) :
    (predict_single q obs).length = obs.length ∧
    (∀ (i : ℕ) (o : Obs), obs[i]? = some o →
      (predict_single q obs)[i]? =
        some ((q.α0 + q.μα * o.t) * Real.sin o.θ +
          (q.δ0 + q.μδ * o.t) * Real.cos o.θ + q.plx * o.pf)) ∧
    ps.length = obs.length ∧
    (∀ (i : ℕ) (o : Obs), obs[i]? = some o → ∃ E,
      solve_kepler (mean_anomaly p.T p.tperi o.t) p.e tol maxIter = some E ∧
      ps[i]? = some ((p.α0 + p.μα * o.t) * Real.sin o.θ +
        (p.δ0 + p.μδ * o.t) * Real.cos o.θ + p.plx * o.pf +
        ((p.B * (Real.cos E - p.e) + p.G * (Real.sin E * Real.sqrt (1 - p.e ^ 2))) *
            Real.sin o.θ +
          (p.A * (Real.cos E - p.e) + p.F * (Real.sin E * Real.sqrt (1 - p.e ^ 2))) *
            Real.cos o.θ))) := by
  have hg : optMap (orbital_model_at p tol maxIter) obs = some ps := by
    by_cases hc : 0 ≤ p.e ∧ p.e < 1
    · rw [predict_orbital, if_pos hc] at h
      exact h
    · rw [predict_orbital, if_neg hc] at h
      simp at h
  obtain ⟨hlen, helem⟩ := optMap_spec _ obs ps hg
  refine ⟨by simp [predict_single], ?_, hlen, ?_⟩
  · intro i o ho
    simp [predict_single, List.getElem?_map, ho, single_star_model]
  · intro i o ho
    obtain ⟨b, hb, hpsi⟩ := helem i o ho
    rw [orbital_model_at, Option.map_eq_some'] at hb
    obtain ⟨E, hE, hgE⟩ := hb
    refine ⟨E, hE, ?_⟩
    rw [hpsi, ← hgE]
    simp only [single_star_model, orbital_term, thiele_innes_position,
      OrbitalParams.base]

/-- Witness for C2: one observation at the reference epoch, circular orbit. -/
theorem predict_matches_formula_witness :
    predict_orbital exampleParams [exampleObs] 1 1 = some [0] ∧
    ((predict_single exampleParams.base [exampleObs]).length = [exampleObs].length ∧
    (∀ (i : ℕ) (o : Obs), [exampleObs][i]? = some o →
      (predict_single exampleParams.base [exampleObs])[i]? =
        some ((exampleParams.base.α0 + exampleParams.base.μα * o.t) * Real.sin o.θ +
          (exampleParams.base.δ0 + exampleParams.base.μδ * o.t) * Real.cos o.θ +
          exampleParams.base.plx * o.pf)) ∧
    ([0] : List ℝ).length = [exampleObs].length ∧
    (∀ (i : ℕ) (o : Obs), [exampleObs][i]? = some o → ∃ E,
      solve_kepler (mean_anomaly exampleParams.T exampleParams.tperi o.t)
        exampleParams.e 1 1 = some E ∧
      ([0] : List ℝ)[i]? = some ((exampleParams.α0 + exampleParams.μα * o.t) * Real.sin o.θ +
        (exampleParams.δ0 + exampleParams.μδ * o.t) * Real.cos o.θ +
        exampleParams.plx * o.pf +
        ((exampleParams.B * (Real.cos E - exampleParams.e) +
            exampleParams.G * (Real.sin E * Real.sqrt (1 - exampleParams.e ^ 2))) *
            Real.sin o.θ +
          (exampleParams.A * (Real.cos E - exampleParams.e) +
            exampleParams.F * (Real.sin E * Real.sqrt (1 - exampleParams.e ^ 2))) *
            Real.cos o.θ)))) := by
  have hM0 : mean_anomaly 1 0 0 = 0 := by
    simp [mean_anomaly, pymod]
  have hsk : solve_kepler 0 0 1 1 = some 0 := solve_kepler_ecc_zero 0 1 one_pos 0
  have hp : predict_orbital exampleParams [exampleObs] 1 1 = some [0] := by
    rw [predict_orbital, if_pos]
    · simp [optMap, orbital_model_at, exampleParams, exampleObs, hM0, hsk,
        single_star_model, orbital_term, thiele_innes_position, OrbitalParams.base]
    · constructor <;> simp [exampleParams]
  exact ⟨hp, predict_matches_formula exampleParams exampleParams.base
    [exampleObs] 1 1 [0] hp⟩

/-- C5: `sqrt(1 - e²)` is never evaluated with `e ≥ 1`: whenever the orbital
model or the orbital χ² is actually evaluated (returns a value), the candidate
eccentricity had passed the `[0, 1)` guard, so the argument of the square root
in `thiele_innes_position` is positive. -/
theorem ecc_guard (p : OrbitalParams) (obs : List Obs) (wobs sigw : List ℝ)
    (tol : ℝ) (maxIter : ℕ) (ps : List ℝ) (c : ℝ)
    (h : predict_orbital p obs tol maxIter = some ps ∨
      chi2_orbital p obs wobs sigw tol maxIter = some c) :
    0 ≤ p.e ∧ p.e < 1 ∧ 0 < 1 - p.e ^ 2 := by
  have hc : 0 ≤ p.e ∧ p.e < 1 := by
    by_cases hg : 0 ≤ p.e ∧ p.e < 1
    · exact hg
    · rcases h with h | h
      · rw [predict_orbital, if_neg hg] at h
        simp at h
      · rw [chi2_orbital, predict_orbital, if_neg hg] at h
        simp at h
  exact ⟨hc.1, hc.2, by nlinarith [hc.1, hc.2]⟩

/-- Witness for C5: the example parameter vector passes the guard. -/
theorem ecc_guard_witness :
    (predict_orbital exampleParams [] 1 1 = some [] ∨
      chi2_orbital exampleParams [] [] [] 1 1 = some 0) ∧
    (0 ≤ exampleParams.e ∧ exampleParams.e < 1 ∧ 0 < 1 - exampleParams.e ^ 2) := by
  have hp : predict_orbital exampleParams [] 1 1 = some [] := by
    rw [predict_orbital, if_pos]
    · rfl
    · constructor <;> simp [exampleParams]
  exact ⟨Or.inl hp, ecc_guard exampleParams [] [] [] 1 1 [] 0 (Or.inl hp)⟩
